import Mathlib

/-!
Formal model of the scope repository introspection core (package analyzer,
file part_000) and of the cache collaborator (package cache, file part_004).

Go machine-level concerns are embedded as follows: strings are Lean String
values compared character-wise (byte-wise and codepoint-wise lexicographic
order agree on valid UTF-8, which is what Go string comparison does);
go/types objects resolved by the front end (scopes, method sets, struct
fields, interface methods, rendered type strings, sizes) are carried as
explicit data on the embedded handles, since the front end is an external
trusted collaborator; Go map iteration order, which is unspecified at run
time, is made explicit by keeping map entries in a list whose order is an
input of the model; wall-clock fields (AnalysisResult.Timestamp, Duration,
AnalysisMetrics.AnalysisTime, MemoryUsage) and the logger are outside the
model, as are Go struct fields that no code path ever assigns
(TypeInfo.Interfaces, Examples, Dependencies, UsedBy, Tags,
AnalysisResult.Imports, Errors, Warnings, TotalFiles, TotalLines,
FunctionInfo.Complexity, PackageInfo.Position, Size, ImportInfo). The
sync.RWMutex is also outside the model: queries are pure readers and the
only writers are Refresh and Close, which appear as state transitions.
-/

namespace Scope

/-! String primitives. Go strings.ToLower, strings.Contains and the
built-in string comparison are modelled on the underlying character list,
with executable definitions that the kernel can evaluate. -/

/-- Character-list lexicographic strictly-less test, the order Go uses to
compare strings in `sort.Slice` (byte-wise order coincides with
codepoint-wise order on valid UTF-8). -/
def charsLt : List Char → List Char → Bool
  | [], [] => false
  | [], _ :: _ => true
  | _ :: _, [] => false
  | a :: as, b :: bs => if a < b then true else if b < a then false else charsLt as bs

/-- Go string comparison s < t. -/
def strLt (s t : String) : Bool := charsLt s.data t.data

/-- ASCII lower-casing of one character, the fragment of strings.ToLower
exercised by identifiers in this codebase. -/
def lowerChar (c : Char) : Char := c.toLower

/-- Model of strings.ToLower. -/
def lowerStr (s : String) : String := ⟨s.data.map lowerChar⟩

/-- Does the second list start the first one. -/
def charsStartWith : List Char → List Char → Bool
  | _, [] => true
  | [], _ :: _ => false
  | c :: cs, d :: ds => c == d && charsStartWith cs ds

/-- Does sub occur contiguously inside s (model of strings.Contains). -/
def charsContain (sub : List Char) : List Char → Bool
  | [] => charsStartWith [] sub
  | c :: rest => charsStartWith (c :: rest) sub || charsContain sub rest

/-- Model of strings.Contains s sub. -/
def strContains (s sub : String) : Bool := charsContain sub.data s.data

/-! Descriptor records, translated from the Go structs in part_000. Field
names follow the source. -/

/-- Position: source code position (struct Position). -/
structure Position where
  Filename : String
  Line : Int
  Column : Int
deriving Repr, DecidableEq

/-- The zero value of Position, what a Go struct literal leaves behind when
the position field is never assigned. -/
def posZero : Position := ⟨"", 0, 0⟩

/-- ParamInfo: parameter or result information (struct ParamInfo). -/
structure ParamInfo where
  Name : String
  TypeStr : String
deriving Repr, DecidableEq

/-- MethodInfo: information about a method (struct MethodInfo). -/
structure MethodInfo where
  Name : String
  Signature : String
  Doc : String
  Receiver : String
  Parameters : List ParamInfo
  Results : List ParamInfo
  Pos : Position
  Exported : Bool
  IsPointer : Bool
deriving Repr, DecidableEq

/-- FieldInfo: information about a struct field (struct FieldInfo). -/
structure FieldInfo where
  Name : String
  TypeStr : String
  Tag : String
  Doc : String
  Pos : Position
  Exported : Bool
  Embedded : Bool
deriving Repr, DecidableEq

/-- TypeInfo: comprehensive information about a Go type (struct TypeInfo).
Fields that no code path assigns (Interfaces, Examples, Dependencies,
UsedBy, Tags) are omitted from the model. -/
structure TypeInfo where
  Name : String
  Kind : String
  Package : String
  ImportPath : String
  Doc : String
  Methods : List MethodInfo
  Fields : List FieldInfo
  Pos : Position
  Exported : Bool
  Size : Int
  Alignment : Int
deriving Repr, DecidableEq

/-- FunctionInfo: information about a function (struct FunctionInfo);
Complexity is never assigned and is omitted. -/
structure FunctionInfo where
  Name : String
  Signature : String
  Doc : String
  Package : String
  Parameters : List ParamInfo
  Results : List ParamInfo
  Pos : Position
  Exported : Bool
  IsMethod : Bool
deriving Repr, DecidableEq

/-- VariableInfo: information about a variable (struct VariableInfo). -/
structure VariableInfo where
  Name : String
  TypeStr : String
  Doc : String
  Package : String
  Pos : Position
  Exported : Bool
  Value : String
deriving Repr, DecidableEq

/-- ConstantInfo: information about a constant (struct ConstantInfo). -/
structure ConstantInfo where
  Name : String
  TypeStr : String
  Value : String
  Doc : String
  Package : String
  Pos : Position
  Exported : Bool
deriving Repr, DecidableEq

/-- PackageInfo: information about a package (struct PackageInfo); the
Position and Size fields are never assigned and stay at their zero value,
kept here for the record shape. -/
structure PackageInfo where
  Name : String
  ImportPath : String
  Doc : String
  Files : List String
  Pos : Position
  IsMain : Bool
  Size : Int
deriving Repr, DecidableEq

/-- AnalysisMetrics (struct AnalysisMetrics) minus the wall-clock and
memory fields; TotalFiles and TotalLines are never assigned. -/
structure AnalysisMetrics where
  TotalFiles : Nat
  TotalLines : Nat
  TotalTypes : Nat
  TotalFunctions : Nat
  TotalPackages : Nat
deriving Repr, DecidableEq

/-- AnalysisResult (struct AnalysisResult) minus wall-clock fields; the
Imports, Errors and Warnings sequences are never appended to by
AnalyzeRepository and are left out of the record. -/
structure AnalysisResult where
  Types : List TypeInfo
  Functions : List FunctionInfo
  Variables : List VariableInfo
  Constants : List ConstantInfo
  Packages : List PackageInfo
  Metrics : AnalysisMetrics
deriving Repr, DecidableEq

/-! Front-end data. These records carry what the go/types and go/doc
libraries hand to the analyzer: resolved objects, method-set selections,
struct fields, interface methods and recovered documentation. -/

/-- The two selection kinds the analyzer distinguishes:
types.MethodVal versus everything else (field or method-expression
selections are skipped by getTypeMethods). -/
inductive SelKind where
  | methodVal
  | otherSel
deriving Repr, DecidableEq

/-- One entry of a types.MethodSet as the analyzer reads it: the selection
kind, the data of the selected *types.Func (name, rendered signature,
rendered receiver type when present, parameter and result tuples already
rendered to name/type pairs, position, exportedness) and the
Selection.Indirect flag. -/
structure Selection where
  SKind : SelKind
  Name : String
  Sig : String
  Recv : Option String
  Params : List ParamInfo
  Results : List ParamInfo
  Pos : Position
  Exported : Bool
  Indirect : Bool
deriving Repr, DecidableEq

/-- One declared struct field as resolved by the front end
(types.Struct.Field plus types.Struct.Tag). -/
structure StructField where
  Name : String
  TypeStr : String
  Tag : String
  Pos : Position
  Exported : Bool
  Embedded : Bool
deriving Repr, DecidableEq

/-- One declared interface method as resolved by the front end
(types.Interface.Method). -/
structure IfaceMethod where
  Name : String
  Sig : String
  Params : List ParamInfo
  Results : List ParamInfo
  Pos : Position
  Exported : Bool
deriving Repr, DecidableEq

/-- The underlying shape of a resolved type, the closed set of cases of
the type switch in LookupType. -/
inductive UnderlyingShape where
  | structShape (fields : List StructField)
  | ifaceShape (methods : List IfaceMethod)
  | sliceShape
  | arrayShape
  | mapShape
  | chanShape
  | ptrShape
  | funcShape
  | otherShape
deriving Repr, DecidableEq

/-- A resolved type handle: whether its dynamic go/types representation is
itself a *types.Pointer, its rendered string, its underlying shape, the
method set of the type and of its pointer form (both as the front end
reports them), and the size and alignment the gc/amd64 profile assigns. -/
structure TypeHandle where
  IsPtr : Bool
  TypeStr : String
  Under : UnderlyingShape
  ValueMset : List Selection
  PtrMset : List Selection
  Size : Int
  Align : Int
deriving Repr, DecidableEq

/-- The dynamic category of a scope object, the closed set of cases of the
object type switches in AnalyzeRepository and SearchTypes. -/
inductive ObjKind where
  | typeNameObj
  | funcObj
  | varObj
  | constObj
  | otherObj
deriving Repr, DecidableEq

/-- A resolved top-level scope object: name, exportedness, position,
dynamic category, resolved type handle, and the extra data the Describer
reads for functions (signature string, receiver presence, tuples) and
constants (evaluated literal value). -/
structure Obj where
  Name : String
  Exported : Bool
  Pos : Position
  OKind : ObjKind
  Ty : TypeHandle
  FnSig : String := ""
  FnHasRecv : Bool := false
  FnParams : List ParamInfo := []
  FnResults : List ParamInfo := []
  ConstVal : String := ""
deriving Repr, DecidableEq

/-- A resolved package: name, import path and top-level scope in
Scope.Names order. -/
structure Pkg where
  Name : String
  Path : String
  PScope : List Obj
deriving Repr, DecidableEq

/-- A recovered documentation example (go/doc Example with its code
already rendered to a string, as GetExample formats it). -/
structure DocExample where
  Name : String
  Code : String
  Doc : String
deriving Repr, DecidableEq

/-- A doc.Type entry. -/
structure DocType where
  Name : String
  Doc : String
  Examples : List DocExample
deriving Repr, DecidableEq

/-- A doc.Func entry. -/
structure DocFunc where
  Name : String
  Doc : String
  Examples : List DocExample
deriving Repr, DecidableEq

/-- A doc.Package entry. -/
structure DocPkg where
  Name : String
  Doc : String
  Types : List DocType
  Funcs : List DocFunc
  Examples : List DocExample
deriving Repr, DecidableEq

/-- The analyzer state: the pkgs map, the docPkgs map and the files map as
entry lists in their current (unspecified) iteration order, plus the
initialized flag. The repoPath, fset, logger, config and mutex fields of
the Go struct are outside the model. -/
structure Analyzer where
  pkgs : List Pkg
  docPkgs : List (String × DocPkg)
  initialized : Bool
  files : List (String × List String)
deriving Repr, DecidableEq

/-! The analyzer operations, translated method by method from part_000. -/

/-- Insertion of one MethodInfo into a name-sorted list, using the same
strict name comparison that the sort.Slice call in getTypeMethods uses. -/
def insertByName (m : MethodInfo) : List MethodInfo → List MethodInfo
  | [] => [m]
  | x :: xs => if strLt x.Name m.Name then x :: insertByName m xs else m :: x :: xs

/-- Model of the final sort.Slice of getTypeMethods: sort the merged
method list by name, ascending. -/
def sortByName : List MethodInfo → List MethodInfo
  | [] => []
  | m :: ms => insertByName m (sortByName ms)

/-- The MethodInfo built in the first (value method set) loop of
getTypeMethods: IsPointer is Selection.Indirect, the receiver string is
filled when the signature has one, Doc is never assigned. -/
def valuePassInfo (s : Selection) : MethodInfo :=
  { Name := s.Name, Signature := s.Sig, Doc := "",
    Receiver := s.Recv.getD "",
    Parameters := s.Params, Results := s.Results,
    Pos := s.Pos, Exported := s.Exported, IsPointer := s.Indirect }

/-- The MethodInfo built in the second (pointer method set) loop of
getTypeMethods: identical except that IsPointer is hard-coded true. -/
def ptrPassInfo (s : Selection) : MethodInfo :=
  { valuePassInfo s with IsPointer := true }

/-- The MethodVal entries of the value method set, in order. -/
def valueSels (t : TypeHandle) : List Selection :=
  t.ValueMset.filter (fun s => s.SKind == SelKind.methodVal)

/-- The MethodVal entries of the pointer-form method set, in order. -/
def ptrSels (t : TypeHandle) : List Selection :=
  t.PtrMset.filter (fun s => s.SKind == SelKind.methodVal)

/-- The second loop of getTypeMethods: walk the pointer method set and
append a descriptor for every selection whose name is not already present
in the accumulated list. -/
def ptrMerge (base : List MethodInfo) (sels : List Selection) : List MethodInfo :=
  sels.foldl
    (fun acc s => if acc.any (fun m => m.Name == s.Name) then acc else acc ++ [ptrPassInfo s])
    base

/-- getTypeMethods: value method set pass, then (unless the handle is
itself a pointer type) the pointer method set pass with skip-by-name, then
sort by name. -/
def getTypeMethods (t : TypeHandle) : List MethodInfo :=
  let methods := (valueSels t).map valuePassInfo
  let methods := if t.IsPtr then methods else ptrMerge methods (ptrSels t)
  sortByName methods

/-- analyzeStructFields: one FieldInfo per declared field, in declaration
order; Doc is never assigned. -/
def analyzeStructFields (fields : List StructField) : List FieldInfo :=
  fields.map (fun f =>
    { Name := f.Name, TypeStr := f.TypeStr, Tag := f.Tag, Doc := "",
      Pos := f.Pos, Exported := f.Exported, Embedded := f.Embedded })

/-- analyzeInterfaceMethods: one MethodInfo per declared interface method,
in declaration order; Doc, Receiver and IsPointer are never assigned. -/
def analyzeInterfaceMethods (methods : List IfaceMethod) : List MethodInfo :=
  methods.map (fun m =>
    { Name := m.Name, Signature := m.Sig, Doc := "", Receiver := "",
      Parameters := m.Params, Results := m.Results,
      Pos := m.Pos, Exported := m.Exported, IsPointer := false })

/-- The documentation lookup inside LookupType: find the docPkgs entry of
the owning package, then the first doc.Type with the requested name. -/
def docLookup (docPkgs : List (String × DocPkg)) (pkgName typeName : String) : String :=
  match docPkgs.find? (fun e => e.fst == pkgName) with
  | some e =>
      match e.snd.Types.find? (fun dt => dt.Name == typeName) with
      | some dt => dt.Doc
      | none => ""
  | none => ""

/-- The kind string assigned by the underlying-shape type switch in
LookupType. -/
def kindString : UnderlyingShape → String
  | UnderlyingShape.structShape _ => "struct"
  | UnderlyingShape.ifaceShape _ => "interface"
  | UnderlyingShape.sliceShape => "slice"
  | UnderlyingShape.arrayShape => "array"
  | UnderlyingShape.mapShape => "map"
  | UnderlyingShape.chanShape => "channel"
  | UnderlyingShape.ptrShape => "pointer"
  | UnderlyingShape.funcShape => "function"
  | UnderlyingShape.otherShape => "other"

/-- The body of the package loop of LookupType once an object has been
found: build the TypeInfo, populate Fields or Methods from the underlying
shape, then unconditionally overwrite Methods with the getTypeMethods
result and record size and alignment. -/
def buildTypeInfo (docPkgs : List (String × DocPkg)) (p : Pkg) (obj : Obj)
    (typeName : String) : TypeInfo :=
  let base : TypeInfo :=
    { Name := typeName, Kind := "", Package := p.Name, ImportPath := p.Path,
      Doc := docLookup docPkgs p.Name typeName,
      Methods := [], Fields := [], Pos := obj.Pos, Exported := obj.Exported,
      Size := 0, Alignment := 0 }
  let withShape :=
    match obj.Ty.Under with
    | UnderlyingShape.structShape fs =>
        { base with Kind := "struct", Fields := analyzeStructFields fs }
    | UnderlyingShape.ifaceShape ms =>
        { base with Kind := "interface", Methods := analyzeInterfaceMethods ms }
    | u => { base with Kind := kindString u }
  { withShape with
    Methods := getTypeMethods obj.Ty,
    Size := obj.Ty.Size, Alignment := obj.Ty.Align }

/-- The package scan of LookupType: first package, in the current map
iteration order, whose scope binds the name, together with the bound
object. -/
def findPkgObj (pkgs : List Pkg) (typeName : String) : Option (Pkg × Obj) :=
  match pkgs with
  | [] => none
  | p :: rest =>
      match p.PScope.find? (fun o => o.Name == typeName) with
      | some o => some (p, o)
      | none => findPkgObj rest typeName

/-- The NotInitialized error message. -/
def notInitializedMsg : String := "analyzer not initialized"

/-- LookupType: fail when not initialized, otherwise scan the packages in
iteration order and build the descriptor of the first binding found; fail
with the not-found message when no package binds the name. -/
def LookupType (a : Analyzer) (typeName : String) : Except String TypeInfo :=
  if a.initialized then
    match findPkgObj a.pkgs typeName with
    | some pr => Except.ok (buildTypeInfo a.docPkgs pr.fst pr.snd typeName)
    | none => Except.error ("type " ++ typeName ++ " not found")
  else Except.error notInitializedMsg

/-- ListMethods: delegate to LookupType and project the Methods field. -/
def ListMethods (a : Analyzer) (typeName : String) : Except String (List MethodInfo) :=
  match LookupType a typeName with
  | Except.error e => Except.error e
  | Except.ok ti => Except.ok ti.Methods

/-- The scope-object step of SearchTypes: for a type-name object whose
lowered name contains the (already lowered) query, append the LookupType
descriptor when that lookup succeeds. -/
def searchScan (a : Analyzer) (q : String) (results : List TypeInfo) (obj : Obj) :
    List TypeInfo :=
  match obj.OKind with
  | ObjKind.typeNameObj =>
      if strContains (lowerStr obj.Name) q then
        match LookupType a obj.Name with
        | Except.ok ti => results ++ [ti]
        | Except.error _ => results
      else results
  | _ => results

/-- SearchTypes: lower the query once, then walk every package scope in
iteration order applying the scan step. Returns a plain list: the Go
function always returns a nil error. -/
def SearchTypes (a : Analyzer) (query : String) : List TypeInfo :=
  let q := lowerStr query
  a.pkgs.foldl (fun results p => p.PScope.foldl (searchScan a q) results) []

/-- GetPackageInfo: look the name up in the pkgs map; no initialized
check appears in the source. -/
def GetPackageInfo (a : Analyzer) (packageName : String) : Except String PackageInfo :=
  match a.pkgs.find? (fun p => p.Name == packageName) with
  | none => Except.error ("package " ++ packageName ++ " not found")
  | some p =>
      Except.ok
        { Name := packageName, ImportPath := p.Path,
          Doc := (match a.docPkgs.find? (fun e => e.fst == packageName) with
                  | some e => e.snd.Doc
                  | none => ""),
          Files := (match a.files.find? (fun e => e.fst == packageName) with
                    | some e => e.snd
                    | none => []),
          Pos := posZero, IsMain := packageName == "main", Size := 0 }

/-- The Example formatting of GetExample. -/
def fmtExample (ex : DocExample) : String :=
  "Example: " ++ ex.Name ++ "\n" ++ ex.Code ++ "\n" ++ ex.Doc

/-- GetExample: walk docPkgs, collecting formatted examples of every
doc type and doc function whose lowered name contains the lowered topic
and of every package example whose own lowered name contains it; join
with blank lines, or fail when nothing matched. No initialized check
appears in the source. -/
def GetExample (a : Analyzer) (topic : String) : Except String String :=
  let examples := a.docPkgs.foldl
    (fun acc e =>
      let dp := e.snd
      let acc := dp.Types.foldl
        (fun acc dt =>
          if strContains (lowerStr dt.Name) (lowerStr topic) then
            acc ++ dt.Examples.map fmtExample
          else acc)
        acc
      let acc := dp.Funcs.foldl
        (fun acc df =>
          if strContains (lowerStr df.Name) (lowerStr topic) then
            acc ++ df.Examples.map fmtExample
          else acc)
        acc
      dp.Examples.foldl
        (fun acc ex =>
          if strContains (lowerStr ex.Name) (lowerStr topic) then
            acc ++ [fmtExample ex]
          else acc)
        acc)
    []
  match examples with
  | [] => Except.error ("no examples found for topic: " ++ topic)
  | _ => Except.ok (String.intercalate "\n\n" examples)

/-- analyzeFunctionObject: the FunctionInfo of one *types.Func. -/
def analyzeFunctionObject (obj : Obj) (pkgName : String) : FunctionInfo :=
  { Name := obj.Name, Signature := obj.FnSig, Doc := "", Package := pkgName,
    Parameters := obj.FnParams, Results := obj.FnResults,
    Pos := obj.Pos, Exported := obj.Exported, IsMethod := obj.FnHasRecv }

/-- analyzeVariableObject: the VariableInfo of one *types.Var. -/
def analyzeVariableObject (obj : Obj) (pkgName : String) : VariableInfo :=
  { Name := obj.Name, TypeStr := obj.Ty.TypeStr, Doc := "", Package := pkgName,
    Pos := obj.Pos, Exported := obj.Exported, Value := "" }

/-- analyzeConstantObject: the ConstantInfo of one *types.Const. -/
def analyzeConstantObject (obj : Obj) (pkgName : String) : ConstantInfo :=
  { Name := obj.Name, TypeStr := obj.Ty.TypeStr, Value := obj.ConstVal,
    Doc := "", Package := pkgName, Pos := obj.Pos, Exported := obj.Exported }

/-- The PackageInfo assembled inside AnalyzeRepository for one package. -/
def mkPackageInfo (a : Analyzer) (p : Pkg) : PackageInfo :=
  { Name := p.Name, ImportPath := p.Path,
    Doc := (match a.docPkgs.find? (fun e => e.fst == p.Name) with
            | some e => e.snd.Doc
            | none => ""),
    Files := (match a.files.find? (fun e => e.fst == p.Name) with
              | some e => e.snd
              | none => []),
    Pos := posZero, IsMain := p.Name == "main", Size := 0 }

/-- The declaration dispatch of AnalyzeRepository on one scope object. -/
def analyzeObjStep (a : Analyzer) (pkgName : String) (acc : AnalysisResult)
    (obj : Obj) : AnalysisResult :=
  match obj.OKind with
  | ObjKind.typeNameObj =>
      match LookupType a obj.Name with
      | Except.ok ti => { acc with Types := acc.Types ++ [ti] }
      | Except.error _ => acc
  | ObjKind.funcObj =>
      { acc with Functions := acc.Functions ++ [analyzeFunctionObject obj pkgName] }
  | ObjKind.varObj =>
      { acc with Variables := acc.Variables ++ [analyzeVariableObject obj pkgName] }
  | ObjKind.constObj =>
      { acc with Constants := acc.Constants ++ [analyzeConstantObject obj pkgName] }
  | ObjKind.otherObj => acc

/-- AnalyzeRepository: fail when not initialized; otherwise walk every
package scope dispatching per declaration, append one PackageInfo per
package, and compute the count metrics over the assembled sequences. -/
def AnalyzeRepository (a : Analyzer) : Except String AnalysisResult :=
  if a.initialized then
    let r0 : AnalysisResult :=
      { Types := [], Functions := [], Variables := [], Constants := [],
        Packages := [], Metrics := ⟨0, 0, 0, 0, 0⟩ }
    let r1 := a.pkgs.foldl
      (fun acc p => p.PScope.foldl (analyzeObjStep a p.Name) acc) r0
    let r2 := { r1 with Packages := r1.Packages ++ a.pkgs.map (mkPackageInfo a) }
    Except.ok
      { r2 with Metrics :=
          { TotalFiles := 0, TotalLines := 0,
            TotalTypes := r2.Types.length,
            TotalFunctions := r2.Functions.length,
            TotalPackages := r2.Packages.length } }
  else Except.error notInitializedMsg

/-! Rebuild lifecycle. The initialize method parses and type checks the
repository: its outcome depends on the filesystem, so the model takes the
outcome as an input. On failure (only the parse walk can fail; the type
check and documentation passes always return nil) the packages parsed so
far were already stored and the initialized flag is left as it was; on
success the parsed data is stored, the documentation map is generated from
it, and the flag is set. -/

/-- The data a successful (or interrupted) parse of the repository
produces: the pkgs map and the files map, in iteration order. -/
structure ParsedRepo where
  pkgs : List Pkg
  files : List (String × List String)
deriving Repr, DecidableEq

/-- generateDocumentation: one docPkgs entry per package, holding one
doc.Type per type name and one doc.Func per function name of the package
scope; only the Name field of each entry is ever assigned, so every Doc
is empty and every Examples list is empty. -/
def generateDocs (pkgs : List Pkg) : List (String × DocPkg) :=
  pkgs.map (fun p =>
    (p.Name,
      { Name := p.Name, Doc := "",
        Types := (p.PScope.filter (fun o => o.OKind == ObjKind.typeNameObj)).map
          (fun o => { Name := o.Name, Doc := "", Examples := [] }),
        Funcs := (p.PScope.filter (fun o => o.OKind == ObjKind.funcObj)).map
          (fun o => { Name := o.Name, Doc := "", Examples := [] }),
        Examples := [] }))

/-- The initialize method: apply the parse outcome to the state. The
error case carries the partial data the walk stored before failing. -/
def rebuildModel (a : Analyzer) (outcome : Except (String × ParsedRepo) ParsedRepo) :
    Analyzer × Option String :=
  match outcome with
  | Except.error ep =>
      ({ a with pkgs := ep.snd.pkgs, files := ep.snd.files }, some ep.fst)
  | Except.ok pr =>
      ({ a with
          pkgs := pr.pkgs
          files := pr.files
          docPkgs := generateDocs pr.pkgs
          initialized := true }, none)

/-- Refresh: under the exclusive lock, clear the model (pkgs, docPkgs,
files, initialized) and re-run initialize. -/
def Refresh (a : Analyzer) (outcome : Except (String × ParsedRepo) ParsedRepo) :
    Analyzer × Option String :=
  rebuildModel
    { a with pkgs := [], docPkgs := [], initialized := false, files := [] }
    outcome

/-- Close: mark the model unusable. -/
def Close (a : Analyzer) : Analyzer :=
  { a with initialized := false }

/-- The state-changing operations of the analyzer, for reasoning about
what can happen between a failed rebuild and a later successful one. -/
inductive Op where
  | refreshOp (outcome : Except (String × ParsedRepo) ParsedRepo)
  | closeOp

/-- Apply one state-changing operation. -/
def stepOp (a : Analyzer) : Op → Analyzer
  | Op.refreshOp o => (Refresh a o).fst
  | Op.closeOp => Close a

/-- Apply a sequence of state-changing operations. -/
def runOps (a : Analyzer) (ops : List Op) : Analyzer := ops.foldl stepOp a

/-- Is the operation a rebuild that succeeds. -/
def opRebuildOk : Op → Bool
  | Op.refreshOp (Except.ok _) => true
  | _ => false

/-! The cache collaborator (package cache, part_004). The wall clock read
by time.Now is passed explicitly as the physical instant in nanoseconds
since the epoch (a natural number: the epoch precedes any instant this
code runs at); durations are integers so that the nonpositive-duration
branch of Set is representable. UnixNano returns an int64, so both the
expiration Set stores (time.Now().Add(duration).UnixNano()) and the
clock value Get compares against are the physical nanosecond count
wrapped into the int64 range: for a legal time.Duration large enough
that the sum passes 2 to the 63, the stored expiration wraps negative.
Disk persistence (load and save) moves the same data map and is outside
the model; the save error Set returns does not affect the stored
entries. -/

/-- Wrap an unbounded integer into the int64 range, the arithmetic of
the Go int64 values UnixNano produces. -/
def wrapInt64 (x : Int) : Int := (x + 2 ^ 63) % 2 ^ 64 - 2 ^ 63

/-- The int64 reading time.Now().UnixNano() yields at the physical
instant now. -/
def unixNano (now : Nat) : Int := wrapInt64 (now : Int)

/-- One cache entry: stored value and expiration instant (0 when the
entry never expires). -/
structure CacheEntry (α : Type) where
  Value : α
  Expiration : Int
deriving Repr, DecidableEq

/-- The in-memory cache data map, as an entry list. -/
structure CacheData (α : Type) where
  data : List (String × CacheEntry α)
deriving Repr, DecidableEq

/-- Go map lookup on the entry list. -/
def cacheFind (d : List (String × CacheEntry α)) (key : String) : Option (CacheEntry α) :=
  (d.find? (fun e => e.fst == key)).map (fun e => e.snd)

/-- Cache.Get: miss when absent, miss when a positive expiration lies
strictly before the current int64 clock reading, hit otherwise. -/
def cacheGet (c : CacheData α) (now : Nat) (key : String) : Option α × Bool :=
  match cacheFind c.data key with
  | none => (none, false)
  | some entry =>
      if entry.Expiration > 0 && entry.Expiration < unixNano now then (none, false)
      else (some entry.Value, true)

/-- Go map assignment on the entry list: replace the binding when the key
is present, append it otherwise. -/
def mapAssign (d : List (String × CacheEntry α)) (key : String) (v : CacheEntry α) :
    List (String × CacheEntry α) :=
  if d.any (fun e => e.fst == key) then
    d.map (fun e => if e.fst == key then (key, v) else e)
  else d ++ [(key, v)]

/-- Cache.Set: expiration is the int64 value
time.Now().Add(duration).UnixNano() when the duration is positive (the
sum now + d wrapped into int64, which lands negative when the sum passes
2 to the 63), and the never-expires marker 0 otherwise. -/
def cacheSet (c : CacheData α) (now : Nat) (key : String) (value : α) (d : Int) :
    CacheData α :=
  let exp : Int := if d > 0 then wrapInt64 ((now : Int) + d) else 0
  { data := mapAssign c.data key ⟨value, exp⟩ }

/-- Cache.Clear: fresh empty map. -/
def cacheClear (_ : CacheData α) : CacheData α := { data := [] }

/-! Derived notions used to state properties of the operations. -/

/-- The ascending-by-name order of a method list, the order the sort at
the end of getTypeMethods establishes. -/
def byNameLE (m1 m2 : MethodInfo) : Prop := m1.Name ≤ m2.Name

/-- Does a package scope bind the given name (the per-package test of the
LookupType scan). -/
def hasBinding (typeName : String) (p : Pkg) : Bool :=
  (p.PScope.find? (fun o => o.Name == typeName)).isSome

/-- Every type-name object of every package scope, in iteration order. -/
def typeNameOccurrences (a : Analyzer) : List String :=
  a.pkgs.flatMap
    (fun p => (p.PScope.filter (fun o => o.OKind == ObjKind.typeNameObj)).map
      (fun o => o.Name))

/-- The name filter SearchTypes applies: the lowered name contains the
lowered query. -/
def queryMatches (query n : String) : Bool :=
  strContains (lowerStr n) (lowerStr query)

/-- The per-object contribution of the SearchTypes scan. -/
def searchHit (a : Analyzer) (q : String) (obj : Obj) : Option TypeInfo :=
  match obj.OKind with
  | ObjKind.typeNameObj =>
      if strContains (lowerStr obj.Name) q then (LookupType a obj.Name).toOption
      else none
  | _ => none

/-! Concrete front-end data used to evaluate the operations on explicit
inputs: a handle whose value and pointer method sets overlap, a named
interface, struct-shaped types declared under the same name in two
packages, and small analyzer states built from them. -/

/-- A value-receiver method selection named Area, as the value method set
of a type T1 reports it. -/
def exSelAreaV : Selection :=
  { SKind := SelKind.methodVal, Name := "Area", Sig := "func() float64",
    Recv := some "T1", Params := [], Results := [⟨"", "float64"⟩],
    Pos := posZero, Exported := true, Indirect := false }

/-- The same Area method as the pointer method set of T1 reports it. -/
def exSelAreaP : Selection :=
  { SKind := SelKind.methodVal, Name := "Area", Sig := "func() float64",
    Recv := some "T1", Params := [], Results := [⟨"", "float64"⟩],
    Pos := posZero, Exported := true, Indirect := true }

/-- A pointer-receiver-only method named Scale of T1. -/
def exSelScale : Selection :=
  { SKind := SelKind.methodVal, Name := "Scale", Sig := "func(f float64)",
    Recv := some "*T1", Params := [⟨"f", "float64"⟩], Results := [],
    Pos := posZero, Exported := true, Indirect := true }

/-- A handle for T1: Area appears in both method sets, Scale only in the
pointer one. -/
def exT1 : TypeHandle :=
  { IsPtr := false, TypeStr := "T1",
    Under := UnderlyingShape.structShape [],
    ValueMset := [exSelAreaV],
    PtrMset := [exSelAreaP, exSelScale],
    Size := 8, Align := 8 }

/-- A declared interface method Foo of an interface I. -/
def exIfmFoo : IfaceMethod :=
  { Name := "Foo", Sig := "func() string", Params := [],
    Results := [⟨"", "string"⟩], Pos := posZero, Exported := true }

/-- The method-set selection of Foo on the named interface I: go/types
reports interface methods with the interface itself as receiver, which is
what makes the resolver output observably differ from the declared list. -/
def exSelFoo : Selection :=
  { SKind := SelKind.methodVal, Name := "Foo", Sig := "func() string",
    Recv := some "I", Params := [], Results := [⟨"", "string"⟩],
    Pos := posZero, Exported := true, Indirect := false }

/-- A handle for the named interface I (a pointer to an interface has no
methods, so the pointer method set is empty). -/
def exTI : TypeHandle :=
  { IsPtr := false, TypeStr := "I",
    Under := UnderlyingShape.ifaceShape [exIfmFoo],
    ValueMset := [exSelFoo], PtrMset := [],
    Size := 16, Align := 8 }

/-- The scope object of I. -/
def exObjI : Obj :=
  { Name := "I", Exported := true, Pos := posZero,
    OKind := ObjKind.typeNameObj, Ty := exTI }

/-- A package declaring the interface I. -/
def exPkgI : Pkg := { Name := "ipkg", Path := "ipkg", PScope := [exObjI] }

/-- An analyzer that has analyzed exPkgI. -/
def exAnI : Analyzer :=
  { pkgs := [exPkgI], docPkgs := generateDocs [exPkgI],
    initialized := true, files := [("ipkg", ["i.go"])] }

/-- A struct field named A of type int. -/
def exFieldA : StructField :=
  { Name := "A", TypeStr := "int", Tag := "", Pos := posZero,
    Exported := true, Embedded := false }

/-- A struct field named B of type string. -/
def exFieldB : StructField :=
  { Name := "B", TypeStr := "string", Tag := "", Pos := posZero,
    Exported := true, Embedded := false }

/-- Config as declared in package alpha: one int field A. -/
def exObjConfigAlpha : Obj :=
  { Name := "Config", Exported := true, Pos := posZero,
    OKind := ObjKind.typeNameObj,
    Ty := { IsPtr := false, TypeStr := "alpha.Config",
            Under := UnderlyingShape.structShape [exFieldA],
            ValueMset := [], PtrMset := [], Size := 8, Align := 8 } }

/-- Config as declared in package beta: one string field B. -/
def exObjConfigBeta : Obj :=
  { Name := "Config", Exported := true, Pos := posZero,
    OKind := ObjKind.typeNameObj,
    Ty := { IsPtr := false, TypeStr := "beta.Config",
            Under := UnderlyingShape.structShape [exFieldB],
            ValueMset := [], PtrMset := [], Size := 16, Align := 8 } }

/-- Extra, declared only in package beta. -/
def exObjExtra : Obj :=
  { Name := "Extra", Exported := true, Pos := posZero,
    OKind := ObjKind.typeNameObj,
    Ty := { IsPtr := false, TypeStr := "beta.Extra",
            Under := UnderlyingShape.sliceShape,
            ValueMset := [], PtrMset := [], Size := 24, Align := 8 } }

/-- Package alpha. -/
def exPkgAlpha : Pkg := { Name := "alpha", Path := "alpha", PScope := [exObjConfigAlpha] }

/-- Package beta. -/
def exPkgBeta : Pkg := { Name := "beta", Path := "beta", PScope := [exObjConfigBeta, exObjExtra] }

/-- A shared docPkgs map for the two-package repository. -/
def exDocsAB : List (String × DocPkg) := generateDocs [exPkgAlpha, exPkgBeta]

/-- The two-package repository with the pkgs map iterated alpha first. -/
def exAnAB : Analyzer :=
  { pkgs := [exPkgAlpha, exPkgBeta], docPkgs := exDocsAB,
    initialized := true, files := [] }

/-- The same repository with the pkgs map iterated beta first. -/
def exAnBA : Analyzer :=
  { pkgs := [exPkgBeta, exPkgAlpha], docPkgs := exDocsAB,
    initialized := true, files := [] }

/-- A one-package analyzer state that is not initialized (as after a
failed Refresh that had parsed this package before failing). -/
def exAnStale : Analyzer :=
  { pkgs := [{ Name := "demo", Path := "demo", PScope := [exObjExtra] }],
    docPkgs := [], initialized := false,
    files := [("demo", ["demo.go"])] }

/-- The PackageInfo that GetPackageInfo assembles for the stale demo
package. -/
def exStaleInfo : PackageInfo :=
  { Name := "demo", ImportPath := "demo", Doc := "",
    Files := ["demo.go"], Pos := posZero, IsMain := false, Size := 0 }

/-- Two unsorted-by-name method selections, for observing the final
sort: Beta in the value method set, Alpha only in the pointer one. -/
def exSelBeta : Selection :=
  { SKind := SelKind.methodVal, Name := "Beta", Sig := "func()",
    Recv := some "T5", Params := [], Results := [],
    Pos := posZero, Exported := true, Indirect := false }

/-- The pointer-set-only selection Alpha of T5. -/
def exSelAlpha : Selection :=
  { SKind := SelKind.methodVal, Name := "Alpha", Sig := "func()",
    Recv := some "*T5", Params := [], Results := [],
    Pos := posZero, Exported := true, Indirect := true }

/-- The handle of T5. -/
def exT5 : TypeHandle :=
  { IsPtr := false, TypeStr := "T5",
    Under := UnderlyingShape.structShape [],
    ValueMset := [exSelBeta], PtrMset := [exSelBeta, exSelAlpha],
    Size := 0, Align := 1 }

/-- The scope object of T5. -/
def exObjT5 : Obj :=
  { Name := "T5", Exported := true, Pos := posZero,
    OKind := ObjKind.typeNameObj, Ty := exT5 }

/-- A package declaring T5. -/
def exPkgT5 : Pkg := { Name := "p5", Path := "p5", PScope := [exObjT5] }

/-- An analyzer that has analyzed exPkgT5. -/
def exAnT5 : Analyzer :=
  { pkgs := [exPkgT5], docPkgs := generateDocs [exPkgT5],
    initialized := true, files := [] }

/-- The Radius float64 field of the Scenario A struct. -/
def exFieldRadius : StructField :=
  { Name := "Radius", TypeStr := "float64", Tag := "", Pos := posZero,
    Exported := true, Embedded := false }

/-- The Circle struct object. -/
def exObjCircle : Obj :=
  { Name := "Circle", Exported := true, Pos := posZero,
    OKind := ObjKind.typeNameObj,
    Ty := { IsPtr := false, TypeStr := "shapes.Circle",
            Under := UnderlyingShape.structShape [exFieldRadius],
            ValueMset := [], PtrMset := [exSelAreaP], Size := 8, Align := 8 } }

/-- The shapes package. -/
def exPkgShapes : Pkg := { Name := "shapes", Path := "shapes", PScope := [exObjCircle] }

/-- An analyzer that has analyzed exPkgShapes. -/
def exAnShapes : Analyzer :=
  { pkgs := [exPkgShapes], docPkgs := generateDocs [exPkgShapes],
    initialized := true, files := [] }

/-- A UserAccount type object for the search scenarios. -/
def exObjUserAccount : Obj :=
  { Name := "UserAccount", Exported := true, Pos := posZero,
    OKind := ObjKind.typeNameObj,
    Ty := { IsPtr := false, TypeStr := "acct.UserAccount",
            Under := UnderlyingShape.structShape [exFieldA],
            ValueMset := [], PtrMset := [], Size := 8, Align := 8 } }

/-- A Widget type object and a helper function object in the same
package, so that the search walk also passes a non-type object. -/
def exObjWidget : Obj :=
  { Name := "Widget", Exported := true, Pos := posZero,
    OKind := ObjKind.typeNameObj,
    Ty := { IsPtr := false, TypeStr := "acct.Widget",
            Under := UnderlyingShape.mapShape,
            ValueMset := [], PtrMset := [], Size := 8, Align := 8 } }

/-- The helper function object. -/
def exObjHelper : Obj :=
  { Name := "NewUserAccount", Exported := true, Pos := posZero,
    OKind := ObjKind.funcObj,
    Ty := { IsPtr := false, TypeStr := "func() acct.UserAccount",
            Under := UnderlyingShape.funcShape,
            ValueMset := [], PtrMset := [], Size := 8, Align := 8 },
    FnSig := "func() acct.UserAccount", FnHasRecv := false,
    FnParams := [], FnResults := [⟨"", "acct.UserAccount"⟩] }

/-- The acct package. -/
def exPkgAcct : Pkg :=
  { Name := "acct", Path := "acct",
    PScope := [exObjUserAccount, exObjHelper, exObjWidget] }

/-- An analyzer that has analyzed exPkgAcct. -/
def exAnAcct : Analyzer :=
  { pkgs := [exPkgAcct], docPkgs := generateDocs [exPkgAcct],
    initialized := true, files := [] }

/-- A parse outcome that fails after storing one package, for the
Refresh scenarios. -/
def exParsedDemo : ParsedRepo :=
  { pkgs := [exPkgT5], files := [("p5", ["t5.go"])] }

/-- A realistic Unix nano clock reading (within int64, late 2023). -/
def exCacheNow : Nat := 1700000000000000000

/-- A legal positive time.Duration (below 2 to the 63 nanoseconds, about
253 years) large enough that exCacheNow plus it passes 2 to the 63. -/
def exCacheDur : Int := 8000000000000000000

/-- The cache after storing key k with that clock and duration: the
stored expiration is the wrapped (negative) int64 sum. -/
def exCacheOverflow : CacheData Nat := cacheSet ⟨[]⟩ exCacheNow "k" 7 exCacheDur

/-! Lemmas about the string primitives. -/

theorem charsLt_iff : ∀ as bs : List Char, charsLt as bs = true ↔ as < bs := by
  intro as
  induction as with
  | nil =>
      intro bs
      cases bs with
      | nil =>
          simp only [charsLt, Bool.false_eq_true, false_iff]
          intro h; cases h
      | cons b bs =>
          simp only [charsLt, true_iff]
          exact List.Lex.nil
  | cons a as ih =>
      intro bs
      cases bs with
      | nil =>
          simp only [charsLt, Bool.false_eq_true, false_iff]
          intro h; cases h
      | cons b bs =>
          simp only [charsLt]
          constructor
          · intro h
            by_cases hab : a < b
            · exact List.Lex.rel hab
            · rw [if_neg hab] at h
              by_cases hba : b < a
              · rw [if_pos hba] at h; exact absurd h (by simp)
              · rw [if_neg hba] at h
                have heq : a = b := le_antisymm (not_lt.mp hba) (not_lt.mp hab)
                subst heq
                exact List.Lex.cons ((ih bs).mp h)
          · intro h
            cases h with
            | rel hab => simp [if_pos hab]
            | cons htail =>
                rw [if_neg (lt_irrefl a), if_neg (lt_irrefl a)]
                exact (ih bs).mpr htail

theorem strLt_iff (s t : String) : strLt s t = true ↔ s < t := by
  rw [String.lt_iff_toList_lt]
  exact charsLt_iff s.data t.data

theorem strLt_false_iff (s t : String) : strLt s t = false ↔ t ≤ s := by
  rw [← not_lt, ← strLt_iff]
  simp

theorem charsContain_nil : ∀ l : List Char, charsContain [] l = true := by
  intro l
  cases l with
  | nil => rfl
  | cons c rest => simp [charsContain, charsStartWith]

theorem strContains_empty (s : String) : strContains s "" = true :=
  charsContain_nil s.data

/-! Lemmas about the method sort at the end of getTypeMethods. -/

theorem perm_insertByName (m : MethodInfo) (l : List MethodInfo) :
    (insertByName m l).Perm (m :: l) := by
  induction l with
  | nil => exact List.Perm.refl _
  | cons x xs ih =>
      simp only [insertByName]
      split
      · exact (ih.cons x).trans (List.Perm.swap m x xs)
      · exact List.Perm.refl _

theorem perm_sortByName (l : List MethodInfo) : (sortByName l).Perm l := by
  induction l with
  | nil => exact List.Perm.refl _
  | cons m ms ih => exact (perm_insertByName m (sortByName ms)).trans (ih.cons m)

theorem sorted_insertByName (m : MethodInfo) (l : List MethodInfo)
    (h : List.Sorted byNameLE l) : List.Sorted byNameLE (insertByName m l) := by
  induction l with
  | nil => simp [insertByName, List.Sorted]
  | cons x xs ih =>
      rw [List.sorted_cons] at h
      obtain ⟨hx, hxs⟩ := h
      simp only [insertByName]
      split
      · rename_i hlt
        rw [List.sorted_cons]
        refine ⟨?_, ih hxs⟩
        intro b hb
        rcases List.mem_cons.mp ((perm_insertByName m xs).mem_iff.mp hb) with hbm | hbxs
        · rw [hbm]
          exact le_of_lt ((strLt_iff x.Name m.Name).mp hlt)
        · exact hx b hbxs
      · rename_i hnlt
        have hfalse : strLt x.Name m.Name = false := by
          revert hnlt; cases strLt x.Name m.Name <;> simp
        have hmx : byNameLE m x := (strLt_false_iff x.Name m.Name).mp hfalse
        rw [List.sorted_cons]
        refine ⟨?_, List.sorted_cons.mpr ⟨hx, hxs⟩⟩
        intro b hb
        rcases List.mem_cons.mp hb with hbx | hbxs
        · subst hbx; exact hmx
        · exact le_trans hmx (hx b hbxs)

theorem sorted_sortByName (l : List MethodInfo) :
    List.Sorted byNameLE (sortByName l) := by
  induction l with
  | nil => simp [sortByName, List.Sorted]
  | cons m ms ih => exact sorted_insertByName m (sortByName ms) ih

theorem getTypeMethods_eq_sort (t : TypeHandle) :
    getTypeMethods t =
      sortByName (if t.IsPtr then (valueSels t).map valuePassInfo
                  else ptrMerge ((valueSels t).map valuePassInfo) (ptrSels t)) := rfl

/-! Inversion lemmas for LookupType. -/

theorem buildTypeInfo_Methods (d : List (String × DocPkg)) (p : Pkg) (o : Obj)
    (n : String) : (buildTypeInfo d p o n).Methods = getTypeMethods o.Ty := rfl

theorem lookupType_err_not_init (a : Analyzer) (n : String)
    (h : a.initialized = false) : LookupType a n = Except.error notInitializedMsg := by
  simp [LookupType, h]

theorem lookupType_ok_intro (a : Analyzer) (p : Pkg) (o : Obj) (n : String)
    (hinit : a.initialized = true) (hfind : findPkgObj a.pkgs n = some (p, o)) :
    LookupType a n = Except.ok (buildTypeInfo a.docPkgs p o n) := by
  simp [LookupType, hinit, hfind]

theorem lookupType_ok_elim (a : Analyzer) (n : String) (ti : TypeInfo)
    (h : LookupType a n = Except.ok ti) :
    a.initialized = true ∧ ∃ p o, findPkgObj a.pkgs n = some (p, o) ∧
      ti = buildTypeInfo a.docPkgs p o n := by
  unfold LookupType at h
  cases hinit : a.initialized with
  | false => rw [hinit] at h; simp at h
  | true =>
      rw [hinit] at h
      simp only [if_true] at h
      cases hf : findPkgObj a.pkgs n with
      | none => rw [hf] at h; simp at h
      | some pr =>
          obtain ⟨p, o⟩ := pr
          rw [hf] at h
          exact ⟨rfl, p, o, rfl, (Except.ok.inj h).symm⟩

/-! Claim C5. -/

/-- Claim C5: for every named type, the Methods sequence of the
TypeDescriptor produced by LookupType (and the list returned by
ListMethods) is sorted by method name in ascending, case-sensitive
order. -/
theorem c5_methods_sorted (a : Analyzer) (n : String) :
    (∀ ti, LookupType a n = Except.ok ti → List.Sorted byNameLE ti.Methods) ∧
    (∀ ms, ListMethods a n = Except.ok ms → List.Sorted byNameLE ms) := by
  have hmain : ∀ ti, LookupType a n = Except.ok ti → List.Sorted byNameLE ti.Methods := by
    intro ti h
    obtain ⟨_, p, o, _, hti⟩ := lookupType_ok_elim a n ti h
    rw [hti, buildTypeInfo_Methods, getTypeMethods_eq_sort]
    exact sorted_sortByName _
  refine ⟨hmain, ?_⟩
  intro ms h
  unfold ListMethods at h
  cases hl : LookupType a n with
  | error e => rw [hl] at h; simp at h
  | ok ti =>
      rw [hl] at h
      have hms : ms = ti.Methods := (Except.ok.inj h).symm
      rw [hms]
      exact hmain ti hl

/-- Witness for C5 at a concrete analyzer whose type T5 has method sets
arriving in the order Beta, Alpha: the returned list is Alpha, Beta. -/
theorem c5_methods_sorted_witness :
    LookupType exAnT5 "T5" = Except.ok (buildTypeInfo exAnT5.docPkgs exPkgT5 exObjT5 "T5") ∧
    List.Sorted byNameLE (buildTypeInfo exAnT5.docPkgs exPkgT5 exObjT5 "T5").Methods ∧
    (buildTypeInfo exAnT5.docPkgs exPkgT5 exObjT5 "T5").Methods.map (fun m => m.Name) =
      ["Alpha", "Beta"] :=
  ⟨rfl, (c5_methods_sorted exAnT5 "T5").1 _ rfl, by decide⟩

/-! Claim C9. -/

/-- Claim C9: ListMethods returns exactly the Methods sequence of the
descriptor LookupType returns, and fails exactly when LookupType fails,
with the same error. -/
theorem c9_listMethods_delegates (a : Analyzer) (n : String) :
    ListMethods a n = (LookupType a n).map (fun ti => ti.Methods) := by
  unfold ListMethods
  cases LookupType a n <;> rfl

/-! Claim C10. -/

theorem find?_replace {α : Type} (d : List (String × CacheEntry α)) (key : String)
    (v : CacheEntry α) (h : d.any (fun e => e.fst == key) = true) :
    (d.map (fun e => if e.fst == key then (key, v) else e)).find?
      (fun e => e.fst == key) = some (key, v) := by
  induction d with
  | nil => simp at h
  | cons e rest ih =>
      by_cases he : (e.fst == key) = true
      · simp only [List.map_cons, if_pos he]
        rw [List.find?_cons_of_pos _ (by simp)]
      · simp only [List.map_cons, if_neg he]
        rw [List.find?_cons_of_neg _ (by simpa using he)]
        apply ih
        simpa [List.any_cons, he] using h

theorem find?_appended {α : Type} (d : List (String × CacheEntry α)) (key : String)
    (v : CacheEntry α) (h : d.any (fun e => e.fst == key) = false) :
    (d ++ [(key, v)]).find? (fun e => e.fst == key) = some (key, v) := by
  induction d with
  | nil => simp [List.find?]
  | cons e rest ih =>
      simp only [List.any_cons, Bool.or_eq_false_iff] at h
      rw [List.cons_append, List.find?_cons_of_neg _ (by simp [h.1])]
      exact ih h.2

theorem cacheFind_assign {α : Type} (d : List (String × CacheEntry α)) (key : String)
    (v : CacheEntry α) : cacheFind (mapAssign d key v) key = some v := by
  unfold cacheFind mapAssign
  split
  · rename_i h; rw [find?_replace d key v h]; rfl
  · rename_i h; rw [find?_appended d key v (Bool.eq_false_iff.mpr h)]; rfl

theorem wrapInt64_eq_self (x : Int) (h0 : 0 ≤ x) (h1 : x < 2 ^ 63) :
    wrapInt64 x = x := by
  unfold wrapInt64
  rw [Int.emod_eq_of_lt (by omega) (by omega)]
  omega

theorem wrapInt64_overflow (x : Int) (h0 : 2 ^ 63 ≤ x) (h1 : x < 2 ^ 64) :
    wrapInt64 x = x - 2 ^ 64 := by
  unfold wrapInt64
  have h2 : (x + 2 ^ 63) % 2 ^ 64 = (x + 2 ^ 63 - 2 ^ 64) % 2 ^ 64 := by
    conv_lhs => rw [show x + 2 ^ 63 = x + 2 ^ 63 - 2 ^ 64 + 2 ^ 64 * 1 by ring]
    rw [Int.add_mul_emod_self_left]
  rw [h2, Int.emod_eq_of_lt (by omega) (by omega)]
  omega

/-- Counterexample to C10 as stated: at a realistic clock and a legal
positive time.Duration whose sum with the clock passes 2 to the 63, Set
stores a negative (wrapped int64) expiration instant; one nanosecond
later the clock is strictly past that stored instant, yet Get still
returns the value with found true, where the claim requires found to be
false once the current time is past the stored expiration instant. -/
theorem c10_counterexample :
    (0 : Int) < exCacheDur ∧ exCacheDur < 2 ^ 63 ∧ (exCacheNow : Int) < 2 ^ 63 ∧
    cacheFind exCacheOverflow.data "k" = some ⟨7, -8746744073709551616⟩ ∧
    (-8746744073709551616 : Int) < unixNano (exCacheNow + 1) ∧
    cacheGet exCacheOverflow (exCacheNow + 1) "k" = (some 7, true) :=
  ⟨by decide, by decide, by decide, by decide, by decide, by decide⟩

/-- Claim C10 as amended: Set stores the int64 value of now plus the
duration. When the duration is positive and the sum stays within int64,
Get returns the value with found true while the (int64-valued) clock is
at or before that sum and reports found false once strictly past it;
when the sum passes 2 to the 63, the stored expiration wraps negative
and the entry never expires. An entry stored with a nonpositive duration
never expires, and after Clear every key is missing. -/
theorem c10_cache_semantics {α : Type} (c : CacheData α) (now now2 : Nat)
    (key : String) (v : α) (d : Int)
    (hnow : (now : Int) < 2 ^ 63) (hnow2 : (now2 : Int) < 2 ^ 63)
    (hdur : d < 2 ^ 63) :
    (0 < d → (now : Int) + d < 2 ^ 63 → (now2 : Int) ≤ (now : Int) + d →
      cacheGet (cacheSet c now key v d) now2 key = (some v, true)) ∧
    (0 < d → (now : Int) + d < 2 ^ 63 → (now : Int) + d < (now2 : Int) →
      cacheGet (cacheSet c now key v d) now2 key = (none, false)) ∧
    (0 < d → 2 ^ 63 ≤ (now : Int) + d →
      cacheGet (cacheSet c now key v d) now2 key = (some v, true)) ∧
    (d ≤ 0 → cacheGet (cacheSet c now key v d) now2 key = (some v, true)) ∧
    (∀ k, cacheGet (cacheClear c) now2 k = (none, false)) := by
  have hfind : cacheFind (cacheSet c now key v d).data key =
      some ⟨v, if d > 0 then wrapInt64 ((now : Int) + d) else 0⟩ :=
    cacheFind_assign c.data key _
  have hun2 : unixNano now2 = (now2 : Int) :=
    wrapInt64_eq_self _ (Int.natCast_nonneg now2) hnow2
  refine ⟨?_, ?_, ?_, ?_, ?_⟩
  · intro hd hsum hle
    have hexp : (if d > 0 then wrapInt64 ((now : Int) + d) else 0) = (now : Int) + d := by
      rw [if_pos hd]
      exact wrapInt64_eq_self _ (by have := Int.natCast_nonneg now; omega) hsum
    have hpos : (0 : Int) < (now : Int) + d :=
      add_pos_of_nonneg_of_pos (Int.natCast_nonneg now) hd
    have hnlt : ¬ ((now : Int) + d < unixNano now2) := by
      rw [hun2]; exact not_lt.mpr hle
    unfold cacheGet
    rw [hfind, hexp]
    simp [hpos, hnlt]
  · intro hd hsum hlt
    have hexp : (if d > 0 then wrapInt64 ((now : Int) + d) else 0) = (now : Int) + d := by
      rw [if_pos hd]
      exact wrapInt64_eq_self _ (by have := Int.natCast_nonneg now; omega) hsum
    have hpos : (0 : Int) < (now : Int) + d :=
      add_pos_of_nonneg_of_pos (Int.natCast_nonneg now) hd
    have hlt2 : (now : Int) + d < unixNano now2 := by rw [hun2]; exact hlt
    unfold cacheGet
    rw [hfind, hexp]
    simp [hpos, hlt2]
  · intro hd hover
    have hexp : (if d > 0 then wrapInt64 ((now : Int) + d) else 0) =
        (now : Int) + d - 2 ^ 64 := by
      rw [if_pos hd]
      exact wrapInt64_overflow _ hover (by omega)
    have hcondfalse : (decide ((now : Int) + d - 2 ^ 64 > 0) &&
        decide ((now : Int) + d - 2 ^ 64 < unixNano now2)) = false := by
      have h1 : decide ((now : Int) + d - 2 ^ 64 > 0) = false := by
        simp only [decide_eq_false_iff_not]
        omega
      rw [h1, Bool.false_and]
    unfold cacheGet
    rw [hfind, hexp]
    show (if (decide ((now : Int) + d - 2 ^ 64 > 0) &&
        decide ((now : Int) + d - 2 ^ 64 < unixNano now2)) = true
      then ((none : Option α), false) else (some v, true)) = (some v, true)
    rw [hcondfalse]
    simp
  · intro hd
    have hexp : (if d > 0 then wrapInt64 ((now : Int) + d) else 0) = 0 :=
      if_neg (not_lt.mpr hd)
    unfold cacheGet
    rw [hfind, hexp]
    simp
  · intro k; rfl

/-- Witness for the amended C10: set at clock 10 with duration 3, found
at clock 13, gone at clock 14; the overflowing duration of the
counterexample state never expires; duration 0 still found at a huge
clock; Clear erases the key. -/
theorem c10_cache_semantics_witness :
    cacheGet (cacheSet (⟨[]⟩ : CacheData Nat) 10 "k" 7 3) 13 "k" = (some 7, true) ∧
    cacheGet (cacheSet (⟨[]⟩ : CacheData Nat) 10 "k" 7 3) 14 "k" = (none, false) ∧
    cacheGet (cacheSet (⟨[]⟩ : CacheData Nat) exCacheNow "k" 7 exCacheDur)
      (exCacheNow + 1) "k" = (some 7, true) ∧
    cacheGet (cacheSet (⟨[]⟩ : CacheData Nat) 10 "k" 7 0) 99999 "k" = (some 7, true) ∧
    cacheGet (cacheClear (cacheSet (⟨[]⟩ : CacheData Nat) 10 "k" 7 3)) 11 "k" =
      (none, false) :=
  ⟨(c10_cache_semantics ⟨[]⟩ 10 13 "k" 7 3 (by decide) (by decide) (by decide)).1
      (by decide) (by decide) (by decide),
   (c10_cache_semantics ⟨[]⟩ 10 14 "k" 7 3 (by decide) (by decide) (by decide)).2.1
      (by decide) (by decide) (by decide),
   (c10_cache_semantics ⟨[]⟩ exCacheNow (exCacheNow + 1) "k" 7 exCacheDur
      (by decide) (by decide) (by decide)).2.2.1 (by decide) (by decide),
   (c10_cache_semantics ⟨[]⟩ 10 99999 "k" 7 0 (by decide) (by decide) (by decide)).2.2.2.1
      (by decide),
   (c10_cache_semantics ⟨[]⟩ 10 11 "k" 7 3 (by decide) (by decide) (by decide)).2.2.2.2
      "k"⟩

/-! Claim C1: the merge of the two method-set passes. -/

theorem valuePassInfo_name (s : Selection) : (valuePassInfo s).Name = s.Name := rfl

theorem ptrPassInfo_name (s : Selection) : (ptrPassInfo s).Name = s.Name := rfl

theorem ptrMerge_filter (M : String) :
    ∀ (sels : List Selection) (base : List MethodInfo),
      base.any (fun m => m.Name == M) = true →
      (ptrMerge base sels).filter (fun m => m.Name == M) =
        base.filter (fun m => m.Name == M) := by
  intro sels
  induction sels with
  | nil => intro base _; rfl
  | cons s rest ih =>
      intro base h
      have hstep : ptrMerge base (s :: rest) =
          ptrMerge (if base.any (fun m => m.Name == s.Name) then base
                    else base ++ [ptrPassInfo s]) rest := rfl
      rw [hstep]
      by_cases hs : base.any (fun m => m.Name == s.Name) = true
      · rw [if_pos hs]; exact ih base h
      · rw [if_neg hs]
        have hsM : (s.Name == M) = false := by
          by_cases heq : s.Name = M
          · exfalso; apply hs; rw [← heq] at h; exact h
          · exact beq_eq_false_iff_ne.mpr heq
        have hany2 : (base ++ [ptrPassInfo s]).any (fun m => m.Name == M) = true := by
          simp [List.any_append, h]
        rw [ih _ hany2, List.filter_append]
        have hxf : ((ptrPassInfo s).Name == M) = false := by
          rw [ptrPassInfo_name]; exact hsM
        simp [List.filter_cons, hxf]

theorem map_filter_single (M : String) (sel : Selection) :
    ∀ l : List Selection, (l.map (fun s => s.Name)).Nodup →
      l.find? (fun s => s.Name == M) = some sel →
      (l.map valuePassInfo).filter (fun m => m.Name == M) = [valuePassInfo sel] := by
  intro l
  induction l with
  | nil => intro _ h; simp at h
  | cons s rest ih =>
      intro hnd hfind
      simp only [List.map_cons, List.nodup_cons] at hnd
      obtain ⟨hs_not, hnd_rest⟩ := hnd
      by_cases hs : (s.Name == M) = true
      · rw [List.find?_cons_of_pos (p := fun x => x.Name == M) rest hs] at hfind
        have hsel : sel = s := (Option.some.inj hfind).symm
        subst hsel
        have heqM : sel.Name = M := by simpa using hs
        have hnil : (rest.map valuePassInfo).filter (fun m => m.Name == M) = [] := by
          apply List.filter_eq_nil_iff.mpr
          intro m hm
          obtain ⟨r, hr, hrm⟩ := List.mem_map.mp hm
          rw [← hrm, valuePassInfo_name]
          intro hc
          have hrM : r.Name = M := by simpa using hc
          apply hs_not
          have hmem : r.Name ∈ rest.map (fun s => s.Name) := List.mem_map_of_mem _ hr
          rw [hrM, ← heqM] at hmem
          exact hmem
        have hpm : ((valuePassInfo sel).Name == M) = true := by
          rw [valuePassInfo_name]; exact hs
        simp only [List.map_cons, List.filter_cons, hpm, if_true, hnil]
      · rw [List.find?_cons_of_neg (p := fun x => x.Name == M) rest (by simpa using hs)]
          at hfind
        have hpm : ((valuePassInfo s).Name == M) = false := by
          rw [valuePassInfo_name]; exact Bool.eq_false_iff.mpr hs
        simp only [List.map_cons, List.filter_cons, hpm]
        simp only [Bool.false_eq_true, if_false]
        exact ih hnd_rest hfind

/-- Claim C1: when a method name appears in both the value method set and
the pointer method set of a type, the merged list getTypeMethods returns
contains exactly one descriptor of that name, namely the one the
value-form pass built; the same holds of the Methods field of the
descriptor LookupType builds for a type with that handle. -/
theorem c1_method_dedup (t : TypeHandle) (M : String) (sel : Selection)
    (hnd : ((valueSels t).map (fun s => s.Name)).Nodup)
    (hfind : (valueSels t).find? (fun s => s.Name == M) = some sel)
    (hptr : ∃ s2 ∈ ptrSels t, s2.Name = M) :
    ((getTypeMethods t).countP (fun m => m.Name == M) = 1 ∧
     (∀ m ∈ getTypeMethods t, m.Name = M → m = valuePassInfo sel)) ∧
    (∀ (a : Analyzer) (n : String) (p : Pkg) (o : Obj) (ti : TypeInfo),
      findPkgObj a.pkgs n = some (p, o) → o.Ty = t →
      LookupType a n = Except.ok ti →
      ti.Methods.countP (fun m => m.Name == M) = 1 ∧
      ∀ m ∈ ti.Methods, m.Name = M → m = valuePassInfo sel) := by
  clear hptr
  have hbase : ((valueSels t).map valuePassInfo).filter (fun m => m.Name == M) =
      [valuePassInfo sel] := map_filter_single M sel (valueSels t) hnd hfind
  have hany : ((valueSels t).map valuePassInfo).any (fun m => m.Name == M) = true := by
    have hmem : valuePassInfo sel ∈
        ((valueSels t).map valuePassInfo).filter (fun m => m.Name == M) := by
      rw [hbase]; exact List.mem_singleton_self _
    have hmf := List.mem_filter.mp hmem
    exact List.any_eq_true.mpr ⟨_, hmf.1, hmf.2⟩
  have hmerged : (if t.IsPtr then (valueSels t).map valuePassInfo
      else ptrMerge ((valueSels t).map valuePassInfo) (ptrSels t)).filter
        (fun m => m.Name == M) = [valuePassInfo sel] := by
    by_cases hp : t.IsPtr = true
    · rw [if_pos hp]; exact hbase
    · rw [if_neg hp, ptrMerge_filter M (ptrSels t) _ hany]; exact hbase
  have hperm : (getTypeMethods t).Perm
      (if t.IsPtr then (valueSels t).map valuePassInfo
       else ptrMerge ((valueSels t).map valuePassInfo) (ptrSels t)) := by
    rw [getTypeMethods_eq_sort]; exact perm_sortByName _
  have hcount : (getTypeMethods t).countP (fun m => m.Name == M) = 1 := by
    rw [hperm.countP_eq, List.countP_eq_length_filter, hmerged]
    rfl
  have hmem_eq : ∀ m ∈ getTypeMethods t, m.Name = M → m = valuePassInfo sel := by
    intro m hm hname
    have hm2 := hperm.mem_iff.mp hm
    have hm3 : m ∈ (if t.IsPtr then (valueSels t).map valuePassInfo
        else ptrMerge ((valueSels t).map valuePassInfo) (ptrSels t)).filter
          (fun m => m.Name == M) :=
      List.mem_filter.mpr ⟨hm2, by simp [hname]⟩
    rw [hmerged] at hm3
    simpa using hm3
  refine ⟨⟨hcount, hmem_eq⟩, ?_⟩
  intro a n p o ti hf hty hok
  obtain ⟨hinit, p2, o2, hf2, hti⟩ := lookupType_ok_elim a n ti hok
  rw [hf] at hf2
  obtain ⟨hpp, hoo⟩ := (Prod.mk.injEq ..).mp (Option.some.inj hf2)
  rw [hti, buildTypeInfo_Methods, ← hoo, hty]
  exact ⟨hcount, hmem_eq⟩

/-- Witness for C1 at the handle exT1: Area appears in both method sets
and survives once, from the value pass (IsPointer false); Scale is added
by the pointer pass. -/
theorem c1_method_dedup_witness :
    ((getTypeMethods exT1).countP (fun m => m.Name == "Area") = 1 ∧
     (∀ m ∈ getTypeMethods exT1, m.Name = "Area" → m = valuePassInfo exSelAreaV)) ∧
    (getTypeMethods exT1).map (fun m => (m.Name, m.IsPointer)) =
      [("Area", false), ("Scale", true)] :=
  ⟨(c1_method_dedup exT1 "Area" exSelAreaV (by decide) (by decide) (by decide)).1,
   by decide⟩

/-! Claim C7: struct fields. -/

theorem buildTypeInfo_Fields_struct (d : List (String × DocPkg)) (p : Pkg) (o : Obj)
    (n : String) (fs : List StructField)
    (h : o.Ty.Under = UnderlyingShape.structShape fs) :
    (buildTypeInfo d p o n).Fields = analyzeStructFields fs := by
  simp only [buildTypeInfo, h]

/-- Claim C7: for a named type whose underlying shape is a struct with
the given declared fields, the Fields sequence of the descriptor
LookupType returns is exactly one FieldDescriptor per declared field, in
declaration order, each carrying the name, type string, raw tag,
exported flag and embedded flag of its field. -/
theorem c7_struct_fields (a : Analyzer) (n : String) (p : Pkg) (o : Obj)
    (fs : List StructField) (ti : TypeInfo)
    (hfind : findPkgObj a.pkgs n = some (p, o))
    (hstruct : o.Ty.Under = UnderlyingShape.structShape fs)
    (hok : LookupType a n = Except.ok ti) :
    ti.Fields = analyzeStructFields fs ∧
    ti.Fields.length = fs.length ∧
    ∀ (i : Nat) (h1 : i < ti.Fields.length) (h2 : i < fs.length),
      ti.Fields.get ⟨i, h1⟩ =
        { Name := (fs.get ⟨i, h2⟩).Name, TypeStr := (fs.get ⟨i, h2⟩).TypeStr,
          Tag := (fs.get ⟨i, h2⟩).Tag, Doc := "", Pos := (fs.get ⟨i, h2⟩).Pos,
          Exported := (fs.get ⟨i, h2⟩).Exported,
          Embedded := (fs.get ⟨i, h2⟩).Embedded } := by
  obtain ⟨hinit, p2, o2, hf2, hti⟩ := lookupType_ok_elim a n ti hok
  rw [hfind] at hf2
  obtain ⟨hpp, hoo⟩ := (Prod.mk.injEq ..).mp (Option.some.inj hf2)
  have hstruct2 : o2.Ty.Under = UnderlyingShape.structShape fs := by
    rw [← hoo]; exact hstruct
  have feq : ti.Fields = analyzeStructFields fs := by
    rw [hti]; exact buildTypeInfo_Fields_struct a.docPkgs p2 o2 n fs hstruct2
  refine ⟨feq, ?_, ?_⟩
  · rw [feq]; simp [analyzeStructFields]
  · intro i h1 h2
    rw [List.get_of_eq feq ⟨i, h1⟩]
    show ((fs.map _).get _) = _
    rw [List.get_map]

/-- Witness for C7 at the Scenario A repository: Circle has the single
declared field Radius float64, reproduced in order. -/
theorem c7_struct_fields_witness :
    LookupType exAnShapes "Circle" =
      Except.ok (buildTypeInfo exAnShapes.docPkgs exPkgShapes exObjCircle "Circle") ∧
    (buildTypeInfo exAnShapes.docPkgs exPkgShapes exObjCircle "Circle").Fields =
      analyzeStructFields [exFieldRadius] ∧
    analyzeStructFields [exFieldRadius] =
      [{ Name := "Radius", TypeStr := "float64", Tag := "", Doc := "",
         Pos := posZero, Exported := true, Embedded := false }] :=
  ⟨rfl,
   (c7_struct_fields exAnShapes "Circle" exPkgShapes exObjCircle [exFieldRadius]
      (buildTypeInfo exAnShapes.docPkgs exPkgShapes exObjCircle "Circle")
      rfl rfl rfl).1,
   by decide⟩

/-! Claim C2: the Methods overwrite after the shape switch. -/

/-- Counterexample to C2 as stated: for the named interface I the
descriptor LookupType returns does not keep the interface-populated
method list; its Methods field is the resolver output (whose Foo entry
carries receiver I), not the analyzeInterfaceMethods output (whose Foo
entry has an empty receiver). -/
theorem c2_counterexample :
    (LookupType exAnI "I").toOption.map (fun ti => ti.Methods) =
      some (getTypeMethods exTI) ∧
    getTypeMethods exTI ≠ analyzeInterfaceMethods [exIfmFoo] :=
  ⟨rfl, by decide⟩

/-- Claim C2 as amended: the Methods field of every descriptor LookupType
builds is unconditionally overwritten with the Receiver Method Resolver
output (getTypeMethods), for every kind including interface-shaped named
types; the interface-populated list does not survive. -/
theorem c2_methods_overwrite (a : Analyzer) (n : String) (p : Pkg) (o : Obj)
    (hinit : a.initialized = true)
    (hfind : findPkgObj a.pkgs n = some (p, o)) :
    LookupType a n = Except.ok (buildTypeInfo a.docPkgs p o n) ∧
    (buildTypeInfo a.docPkgs p o n).Methods = getTypeMethods o.Ty :=
  ⟨lookupType_ok_intro a p o n hinit hfind, buildTypeInfo_Methods a.docPkgs p o n⟩

/-- Witness for the amended C2 at the interface repository. -/
theorem c2_methods_overwrite_witness :
    LookupType exAnI "I" = Except.ok (buildTypeInfo exAnI.docPkgs exPkgI exObjI "I") ∧
    (buildTypeInfo exAnI.docPkgs exPkgI exObjI "I").Methods = getTypeMethods exObjI.Ty :=
  c2_methods_overwrite exAnI "I" exPkgI exObjI rfl rfl

/-! Claim C3: which operations check the initialized flag. -/

/-- Counterexample to C3 as stated: on a state whose first build has not
completed (initialized is false) GetPackageInfo still returns a result
instead of a NotInitialized failure. -/
theorem c3_counterexample :
    exAnStale.initialized = false ∧
    GetPackageInfo exAnStale "demo" = Except.ok exStaleInfo :=
  ⟨rfl, rfl⟩

/-- Claim C3 as amended: before the first successful build completes,
LookupType, ListMethods and AnalyzeRepository fail with the
NotInitialized error, but SearchTypes returns an empty result with no
error, and GetPackageInfo and GetExample do not consult the initialized
flag at all (GetPackageInfo succeeds whenever the package map binds the
name). -/
theorem c3_initialized_gating (a : Analyzer) (n q p topic : String)
    (h : a.initialized = false) :
    LookupType a n = Except.error notInitializedMsg ∧
    ListMethods a n = Except.error notInitializedMsg ∧
    AnalyzeRepository a = Except.error notInitializedMsg ∧
    SearchTypes a q = [] ∧
    (∀ b, GetPackageInfo { a with initialized := b } p = GetPackageInfo a p) ∧
    (∀ b, GetExample { a with initialized := b } topic = GetExample a topic) := by
  have hl : ∀ m, LookupType a m = Except.error notInitializedMsg :=
    fun m => lookupType_err_not_init a m h
  refine ⟨hl n, ?_, ?_, ?_, fun b => rfl, fun b => rfl⟩
  · unfold ListMethods; rw [hl n]
  · simp [AnalyzeRepository, h]
  · show a.pkgs.foldl
      (fun results p2 => p2.PScope.foldl (searchScan a (lowerStr q)) results) [] = []
    have hscan : ∀ (os : List Obj) (res : List TypeInfo),
        os.foldl (searchScan a (lowerStr q)) res = res := by
      intro os
      induction os with
      | nil => intro res; rfl
      | cons o os ih =>
          intro res
          rw [List.foldl_cons]
          have hone : searchScan a (lowerStr q) res o = res := by
            unfold searchScan
            cases o.OKind <;> simp [hl]
          rw [hone]; exact ih res
    have houter : ∀ (ps : List Pkg) (res : List TypeInfo),
        ps.foldl (fun r p2 => p2.PScope.foldl (searchScan a (lowerStr q)) r) res = res := by
      intro ps
      induction ps with
      | nil => intro res; rfl
      | cons p2 ps ih => intro res; rw [List.foldl_cons, hscan]; exact ih res
    exact houter a.pkgs []

/-- Witness for the amended C3 at the stale analyzer state. -/
theorem c3_initialized_gating_witness :
    exAnStale.initialized = false ∧
    LookupType exAnStale "Extra" = Except.error notInitializedMsg ∧
    SearchTypes exAnStale "" = [] ∧
    GetPackageInfo { exAnStale with initialized := true } "demo" =
      GetPackageInfo exAnStale "demo" :=
  ⟨rfl,
   (c3_initialized_gating exAnStale "Extra" "" "demo" "t" rfl).1,
   (c3_initialized_gating exAnStale "Extra" "" "demo" "t" rfl).2.2.2.1,
   (c3_initialized_gating exAnStale "Extra" "" "demo" "t" rfl).2.2.2.2.1 true⟩

/-! Claim C8: a rebuild failure after teardown. -/

theorem refresh_fail_state (a : Analyzer) (e : String) (sofar : ParsedRepo) :
    (Refresh a (Except.error (e, sofar))).fst =
      { pkgs := sofar.pkgs, docPkgs := [], initialized := false,
        files := sofar.files } := rfl

theorem runOps_stays_uninitialized :
    ∀ (ops : List Op) (s : Analyzer), s.initialized = false →
      (∀ o ∈ ops, opRebuildOk o = false) →
      (runOps s ops).initialized = false := by
  intro ops
  induction ops with
  | nil => intro s hs _; exact hs
  | cons o rest ih =>
      intro s hs hops
      have hstep : (stepOp s o).initialized = false := by
        have ho := hops o (List.mem_cons_self o rest)
        cases o with
        | closeOp => rfl
        | refreshOp outcome =>
            cases outcome with
            | ok pr => simp [opRebuildOk] at ho
            | error ep => rfl
      exact ih (stepOp s o) hstep (fun o2 h2 => hops o2 (List.mem_cons_of_mem o h2))

/-- Claim C8: when Refresh fails after the exclusive lock is taken and
the old model has been torn down, the state is NotInitialized (holding
only what the failed parse stored, not the previous model), stays
NotInitialized across any further operations none of which is a
successful rebuild, and becomes initialized again exactly when a rebuild
succeeds. -/
theorem c8_failed_refresh (a : Analyzer) (e : String) (sofar : ParsedRepo)
    (ops : List Op) (hops : ∀ o ∈ ops, opRebuildOk o = false) :
    ((Refresh a (Except.error (e, sofar))).fst.initialized = false ∧
     (Refresh a (Except.error (e, sofar))).fst.pkgs = sofar.pkgs ∧
     (Refresh a (Except.error (e, sofar))).fst.docPkgs = []) ∧
    (runOps (Refresh a (Except.error (e, sofar))).fst ops).initialized = false ∧
    (∀ pr, (Refresh (runOps (Refresh a (Except.error (e, sofar))).fst ops)
        (Except.ok pr)).fst.initialized = true) := by
  refine ⟨⟨rfl, rfl, rfl⟩, ?_, fun pr => rfl⟩
  exact runOps_stays_uninitialized ops _ rfl hops

/-- Witness for C8: a concrete failed refresh, followed by a Close and
another failed refresh, stays uninitialized. -/
theorem c8_failed_refresh_witness :
    (Refresh exAnT5 (Except.error ("walk failed", exParsedDemo))).fst.initialized = false ∧
    (Refresh exAnT5 (Except.error ("walk failed", exParsedDemo))).fst.pkgs =
      exParsedDemo.pkgs ∧
    (runOps (Refresh exAnT5 (Except.error ("walk failed", exParsedDemo))).fst
      [Op.closeOp, Op.refreshOp (Except.error ("again", exParsedDemo))]).initialized =
        false :=
  ⟨(c8_failed_refresh exAnT5 "walk failed" exParsedDemo
      [Op.closeOp, Op.refreshOp (Except.error ("again", exParsedDemo))]
      (by decide)).1.1,
   (c8_failed_refresh exAnT5 "walk failed" exParsedDemo
      [Op.closeOp, Op.refreshOp (Except.error ("again", exParsedDemo))]
      (by decide)).1.2.1,
   (c8_failed_refresh exAnT5 "walk failed" exParsedDemo
      [Op.closeOp, Op.refreshOp (Except.error ("again", exParsedDemo))]
      (by decide)).2.1⟩

/-! Claim C4: LookupType and the package iteration order. -/

theorem findPkgObj_all_none (n : String) :
    ∀ pkgs : List Pkg, (∀ p ∈ pkgs, hasBinding n p = false) →
      findPkgObj pkgs n = none := by
  intro pkgs
  induction pkgs with
  | nil => intro _; rfl
  | cons p rest ih =>
      intro h
      have hp := h p (List.mem_cons_self p rest)
      unfold findPkgObj
      cases hf : p.PScope.find? (fun o => o.Name == n) with
      | some o =>
          exfalso
          unfold hasBinding at hp
          rw [hf] at hp
          simp at hp
      | none => exact ih (fun p2 h2 => h p2 (List.mem_cons_of_mem p h2))

theorem findPkgObj_of_filter_singleton (n : String) (q : Pkg) :
    ∀ pkgs : List Pkg, pkgs.filter (hasBinding n) = [q] →
      ∃ o, q.PScope.find? (fun o2 => o2.Name == n) = some o ∧
        findPkgObj pkgs n = some (q, o) := by
  intro pkgs
  induction pkgs with
  | nil => intro h; simp at h
  | cons p rest ih =>
      intro h
      by_cases hp : hasBinding n p = true
      · rw [List.filter_cons, if_pos hp] at h
        have hpq : p = q := (List.cons.injEq .. |>.mp h).1
        unfold hasBinding at hp
        obtain ⟨o, ho⟩ := Option.isSome_iff_exists.mp hp
        refine ⟨o, by rw [← hpq]; exact ho, ?_⟩
        unfold findPkgObj
        rw [ho, hpq]
      · rw [List.filter_cons, if_neg hp] at h
        obtain ⟨o, ho, hf⟩ := ih h
        refine ⟨o, ho, ?_⟩
        unfold findPkgObj
        have hnone : p.PScope.find? (fun o2 => o2.Name == n) = none := by
          cases hx : p.PScope.find? (fun o2 => o2.Name == n) with
          | none => rfl
          | some o2 => exfalso; unfold hasBinding at hp; rw [hx] at hp; simp at hp
        rw [hnone]
        exact hf

/-- Claim C4 as amended: LookupType is a pure function of the analyzer
state and the name, and its result does not depend on the package
iteration order as long as at most one analyzed package binds the name;
when several packages bind it, the result follows the unspecified map
iteration order and two successive calls may differ (see the
counterexample). -/
theorem c4_lookup_order_independent (a1 a2 : Analyzer) (n : String)
    (hperm : a1.pkgs.Perm a2.pkgs)
    (hdoc : a1.docPkgs = a2.docPkgs)
    (hinit : a1.initialized = a2.initialized)
    (huniq : (a1.pkgs.filter (hasBinding n)).length ≤ 1) :
    LookupType a1 n = LookupType a2 n := by
  have hfilter : (a1.pkgs.filter (hasBinding n)).Perm (a2.pkgs.filter (hasBinding n)) :=
    hperm.filter (hasBinding n)
  have hfind : findPkgObj a1.pkgs n = findPkgObj a2.pkgs n := by
    cases hc : a1.pkgs.filter (hasBinding n) with
    | nil =>
        rw [hc] at hfilter
        have h2 : a2.pkgs.filter (hasBinding n) = [] := hfilter.symm.eq_nil
        have hn1 : findPkgObj a1.pkgs n = none := by
          apply findPkgObj_all_none
          intro p hp
          by_cases hb : hasBinding n p = true
          · exfalso
            have hmem : p ∈ a1.pkgs.filter (hasBinding n) :=
              List.mem_filter.mpr ⟨hp, hb⟩
            rw [hc] at hmem; simp at hmem
          · exact Bool.eq_false_iff.mpr hb
        have hn2 : findPkgObj a2.pkgs n = none := by
          apply findPkgObj_all_none
          intro p hp
          by_cases hb : hasBinding n p = true
          · exfalso
            have hmem : p ∈ a2.pkgs.filter (hasBinding n) :=
              List.mem_filter.mpr ⟨hp, hb⟩
            rw [h2] at hmem; simp at hmem
          · exact Bool.eq_false_iff.mpr hb
        rw [hn1, hn2]
    | cons q rest =>
        have hrest : rest = [] := by
          rw [hc] at huniq
          simp only [List.length_cons] at huniq
          exact List.length_eq_zero.mp (by omega)
        subst hrest
        have h2 : a2.pkgs.filter (hasBinding n) = [q] := by
          rw [hc] at hfilter
          exact List.perm_singleton.mp hfilter.symm
        obtain ⟨o1, ho1, hf1⟩ := findPkgObj_of_filter_singleton n q a1.pkgs hc
        obtain ⟨o2, ho2, hf2⟩ := findPkgObj_of_filter_singleton n q a2.pkgs h2
        rw [hf1, hf2, show o1 = o2 from Option.some.inj (ho1.symm.trans ho2)]
  unfold LookupType
  rw [hinit, hfind, hdoc]

/-- Counterexample to C4 as stated: the same two-package repository map
iterated in its two possible orders (both reachable states of the same
analyzer, since Go map iteration order is unspecified) gives two
different descriptors for the name Config, which is declared in both
packages. -/
theorem c4_counterexample :
    exAnAB.pkgs.Perm exAnBA.pkgs ∧
    exAnAB.docPkgs = exAnBA.docPkgs ∧
    exAnAB.initialized = true ∧ exAnBA.initialized = true ∧
    LookupType exAnAB "Config" ≠ LookupType exAnBA "Config" := by
  refine ⟨by decide, rfl, rfl, rfl, ?_⟩
  intro h
  exact absurd (congrArg (fun r => r.toOption.map (fun ti => ti.Package)) h) (by decide)

/-- Witness for the amended C4: the name Extra is declared in exactly one
package, and the two iteration orders agree on it. -/
theorem c4_lookup_order_independent_witness :
    LookupType exAnAB "Extra" = LookupType exAnBA "Extra" :=
  c4_lookup_order_independent exAnAB exAnBA "Extra" (by decide) rfl rfl (by decide)

/-! Claim C6: SearchTypes. -/

theorem searchScan_append (a : Analyzer) (q : String) (res : List TypeInfo) (o : Obj) :
    searchScan a q res o = res ++ (searchHit a q o).toList := by
  unfold searchScan searchHit
  cases o.OKind with
  | typeNameObj =>
      by_cases hc : strContains (lowerStr o.Name) q = true
      · rw [if_pos hc, if_pos hc]
        cases LookupType a o.Name <;> simp [Except.toOption]
      · rw [if_neg hc, if_neg hc]; simp
  | funcObj => simp
  | varObj => simp
  | constObj => simp
  | otherObj => simp

theorem foldl_searchScan (a : Analyzer) (q : String) :
    ∀ (os : List Obj) (res : List TypeInfo),
      os.foldl (searchScan a q) res = res ++ os.filterMap (searchHit a q) := by
  intro os
  induction os with
  | nil => intro res; simp
  | cons o os ih =>
      intro res
      rw [List.foldl_cons, searchScan_append, ih]
      cases hh : searchHit a q o <;> simp [List.filterMap_cons, hh]

theorem searchTypes_eq_flat (a : Analyzer) (query : String) :
    SearchTypes a query =
      a.pkgs.flatMap (fun p => p.PScope.filterMap (searchHit a (lowerStr query))) := by
  show a.pkgs.foldl
      (fun results p => p.PScope.foldl (searchScan a (lowerStr query)) results) [] = _
  have houter : ∀ (ps : List Pkg) (res : List TypeInfo),
      ps.foldl (fun r p => p.PScope.foldl (searchScan a (lowerStr query)) r) res =
        res ++ ps.flatMap (fun p => p.PScope.filterMap (searchHit a (lowerStr query))) := by
    intro ps
    induction ps with
    | nil => intro res; simp
    | cons p ps ih =>
        intro res
        rw [List.foldl_cons, foldl_searchScan, ih]
        simp [List.flatMap_cons]
  simpa using houter a.pkgs []

theorem filterMap_searchHit_eq (a : Analyzer) (query : String) (os : List Obj) :
    os.filterMap (searchHit a (lowerStr query)) =
      (((os.filter (fun o => o.OKind == ObjKind.typeNameObj)).map
          (fun o => o.Name)).filter (queryMatches query)).filterMap
        (fun m => (LookupType a m).toOption) := by
  induction os with
  | nil => rfl
  | cons o os ih =>
      rw [List.filterMap_cons, List.filter_cons]
      have hhit : searchHit a (lowerStr query) o =
          (match o.OKind with
           | ObjKind.typeNameObj =>
               if strContains (lowerStr o.Name) (lowerStr query) then
                 (LookupType a o.Name).toOption
               else none
           | _ => none) := rfl
      cases hk : o.OKind with
      | typeNameObj =>
          rw [hhit, hk]
          by_cases hm : strContains (lowerStr o.Name) (lowerStr query) = true
          · have hq : queryMatches query o.Name = true := hm
            rw [if_pos hm]
            cases hl : (LookupType a o.Name).toOption with
            | none => simp [hq, hl, ih]
            | some ti => simp [hq, hl, ih]
          · have hq : ¬ queryMatches query o.Name = true := hm
            rw [if_neg hm]
            simp [hq, ih]
      | funcObj => rw [hhit, hk]; simpa using ih
      | varObj => rw [hhit, hk]; simpa using ih
      | constObj => rw [hhit, hk]; simpa using ih
      | otherObj => rw [hhit, hk]; simpa using ih

theorem buildTypeInfo_Name (d : List (String × DocPkg)) (p : Pkg) (o : Obj)
    (n : String) : (buildTypeInfo d p o n).Name = n := by
  unfold buildTypeInfo
  cases o.Ty.Under <;> rfl

theorem findPkgObj_some_of_occurrence (n : String) :
    ∀ pkgs : List Pkg, (∃ p ∈ pkgs, ∃ o ∈ p.PScope, o.Name = n) →
      ∃ pr, findPkgObj pkgs n = some pr := by
  intro pkgs
  induction pkgs with
  | nil => intro h; simp at h
  | cons p rest ih =>
      intro h
      unfold findPkgObj
      cases hf : p.PScope.find? (fun o => o.Name == n) with
      | some o => exact ⟨(p, o), rfl⟩
      | none =>
          apply ih
          obtain ⟨p2, hp2, o2, ho2, hname⟩ := h
          rcases List.mem_cons.mp hp2 with hpp | hprest
          · exfalso
            have hcontra := List.find?_eq_none.mp hf o2 (hpp ▸ ho2)
            simp [hname] at hcontra
          · exact ⟨p2, hprest, o2, ho2, hname⟩

/-- Claim C6: SearchTypes is a case-insensitive substring match on type
names: it returns, in scan order, the LookupType descriptor of every
type-name occurrence whose lowered name contains the lowered query (so
the empty query returns a descriptor named after every type-name
occurrence in the repository, and a query matching nothing yields the
empty list rather than an error, SearchTypes having no error output at
all). -/
theorem c6_search_semantics (a : Analyzer) (query : String)
    (h : a.initialized = true) :
    SearchTypes a query =
      ((typeNameOccurrences a).filter (queryMatches query)).filterMap
        (fun m => (LookupType a m).toOption) ∧
    (SearchTypes a query).map (fun ti => ti.Name) =
      (typeNameOccurrences a).filter (queryMatches query) ∧
    (SearchTypes a "").map (fun ti => ti.Name) = typeNameOccurrences a := by
  have main : ∀ qq, SearchTypes a qq =
      ((typeNameOccurrences a).filter (queryMatches qq)).filterMap
        (fun m => (LookupType a m).toOption) := by
    intro qq
    rw [searchTypes_eq_flat]
    unfold typeNameOccurrences
    have hdist : ∀ ps : List Pkg,
        ps.flatMap (fun p => p.PScope.filterMap (searchHit a (lowerStr qq))) =
          ((ps.flatMap (fun p =>
              (p.PScope.filter (fun o => o.OKind == ObjKind.typeNameObj)).map
                (fun o => o.Name))).filter (queryMatches qq)).filterMap
            (fun m => (LookupType a m).toOption) := by
      intro ps
      induction ps with
      | nil => rfl
      | cons p ps ih =>
          rw [List.flatMap_cons, List.flatMap_cons, List.filter_append,
            List.filterMap_append, ih, filterMap_searchHit_eq]
    exact hdist a.pkgs
  have hnames : ∀ qq, (SearchTypes a qq).map (fun ti => ti.Name) =
      (typeNameOccurrences a).filter (queryMatches qq) := by
    intro qq
    rw [main qq]
    have hmem : ∀ m ∈ (typeNameOccurrences a).filter (queryMatches qq),
        ∃ ti, LookupType a m = Except.ok ti ∧ ti.Name = m := by
      intro m hm
      have hocc : m ∈ typeNameOccurrences a := (List.mem_filter.mp hm).1
      unfold typeNameOccurrences at hocc
      obtain ⟨p, hp, hmem2⟩ := List.mem_flatMap.mp hocc
      obtain ⟨o, ho, hname⟩ := List.mem_map.mp hmem2
      have ho2 : o ∈ p.PScope := (List.mem_filter.mp ho).1
      obtain ⟨pr, hpr⟩ :=
        findPkgObj_some_of_occurrence m a.pkgs ⟨p, hp, o, ho2, hname⟩
      obtain ⟨pp, oo⟩ := pr
      exact ⟨buildTypeInfo a.docPkgs pp oo m,
        lookupType_ok_intro a pp oo m h hpr, buildTypeInfo_Name a.docPkgs pp oo m⟩
    have hgen : ∀ L : List String,
        (∀ m ∈ L, ∃ ti, LookupType a m = Except.ok ti ∧ ti.Name = m) →
        ((L.filterMap (fun m => (LookupType a m).toOption)).map
          (fun ti => ti.Name)) = L := by
      intro L
      induction L with
      | nil => intro _; rfl
      | cons m L2 ih =>
          intro hall
          obtain ⟨ti, hti, hn⟩ := hall m (List.mem_cons_self m L2)
          have hopt : (LookupType a m).toOption = some ti := by rw [hti]; rfl
          rw [List.filterMap_cons, hopt]
          show (ti :: L2.filterMap (fun m2 => (LookupType a m2).toOption)).map
            (fun t => t.Name) = m :: L2
          rw [List.map_cons, hn,
            ih (fun m2 h2 => hall m2 (List.mem_cons_of_mem m h2))]
    exact hgen _ hmem
  refine ⟨main query, hnames query, ?_⟩
  rw [hnames ""]
  apply List.filter_eq_self.mpr
  intro n _
  show queryMatches "" n = true
  unfold queryMatches
  exact strContains_empty (lowerStr n)

/-- Witness for C6 on a repository with the type UserAccount, a type
Widget, and a function NewUserAccount (which matches the query but is not
a type): the queries user, ACCOUNT, xyz and the empty query behave as
the claim states. -/
theorem c6_search_semantics_witness :
    (SearchTypes exAnAcct "user").map (fun ti => ti.Name) = ["UserAccount"] ∧
    (SearchTypes exAnAcct "ACCOUNT").map (fun ti => ti.Name) = ["UserAccount"] ∧
    (SearchTypes exAnAcct "xyz").map (fun ti => ti.Name) = [] ∧
    (SearchTypes exAnAcct "").map (fun ti => ti.Name) = ["UserAccount", "Widget"] :=
  ⟨((c6_search_semantics exAnAcct "user" rfl).2.1).trans (by decide),
   ((c6_search_semantics exAnAcct "ACCOUNT" rfl).2.1).trans (by decide),
   ((c6_search_semantics exAnAcct "xyz" rfl).2.1).trans (by decide),
   ((c6_search_semantics exAnAcct "" rfl).2.2).trans (by decide)⟩

end Scope
